import Mathlib

/-!
# Verification of the `truth_table.py` analysis core

Shallow embedding of `src/truth_table.py` (a Python 2 program): the data
model of the ast nodes the program inspects, the candidate filter
(`probably_truthy`), the expression collector (`collect_bool_ops`), the
operand extractor (`collect_names`), the evaluator (`evaluate`), the table
builder (`truth_table`) and the renderer (`simple_table`), together with
theorems settling the specification's claims about them.

Python object identity is modelled by giving every node an explicit
numeric identity (`id`).  The external `astunparse` collaborator is out of
the repository's scope and is modelled from the spec (see `unparse`).
-/

namespace TruthTable

/-- Operator discriminant of an ast `BoolOp` node.  The source dispatches on
`node.op.__class__.__name__`; `OtherOp s` stands for any operator object whose
class name `s` is neither `And` nor `Or`. -/
inductive BoolOperator where
  | And
  | Or
  | OtherOp (s : String)
deriving DecidableEq

/-- Operator discriminant of an ast `UnaryOp` node.  `UOther s` stands for any
operator whose class name `s` is not `Not` (e.g. `"USub"`, unary minus). -/
inductive UnaryOperator where
  | Not
  | UOther (s : String)
deriving DecidableEq

/-- An ast node, as inspected by the source.  Every node carries an `id : Nat`
modelling Python object identity (`id(node)`); distinct nodes of a tree carry
distinct ids.  The constructors mirror the ast class names the source
dispatches on (`BoolOp`, `UnaryOp`, `Name`, `Str`, `Num`, `List`, `Set`,
`Dict`); `Other` stands for a node of any ast class other than those eight
(so its `kind` string is never one of those eight class names), carrying its
child nodes in document order (`ast.iter_fields` order, scalar fields
omitted as the source skips them). -/
inductive Node where
  | BoolOp (id : Nat) (op : BoolOperator) (values : List Node)
  | UnaryOp (id : Nat) (op : UnaryOperator) (operand : Node)
  | NameA (id : Nat) (ident : String)
  | StrA (id : Nat) (s : String)
  | NumA (id : Nat) (n : Int)
  | ListA (id : Nat) (elts : List Node)
  | SetA (id : Nat) (elts : List Node)
  | DictA (id : Nat) (elts : List Node)
  | Other (id : Nat) (kind : String) (children : List Node)

/-- The Python object identity of a node. -/
def nodeId : Node → Nat
  | .BoolOp i _ _ => i
  | .UnaryOp i _ _ => i
  | .NameA i _ => i
  | .StrA i _ => i
  | .NumA i _ => i
  | .ListA i _ => i
  | .SetA i _ => i
  | .DictA i _ => i
  | .Other i _ _ => i

/-- `node.__class__.__name__ == 'BoolOp'` (class-name dispatch used at
src lines 110, 114, 121, 135, 137, 152). -/
def isBoolOp : Node → Bool
  | .BoolOp .. => true
  | _ => false

/-- `node.__class__.__name__ == 'UnaryOp'` (src lines 137, 142, 168). -/
def isUnaryOp : Node → Bool
  | .UnaryOp .. => true
  | _ => false

/-- `node.__class__.__name__ in ['Str', 'Num', 'List', 'Set', 'Dict']`
(the literal-like kinds tested at src lines 112-113). -/
def isLiteralLike : Node → Bool
  | .StrA .. => true
  | .NumA .. => true
  | .ListA .. => true
  | .SetA .. => true
  | .DictA .. => true
  | _ => false

mutual
/-- Modelled from the spec: the external `astunparse.unparse(node).strip()`
collaborator (spec §6, "an unparse function: node -> text, a best-effort
canonical rendering used only for labeling; must be deterministic").  The
`astunparse` package is not part of this repository; following the spec's
end-to-end example the expression `a and b` renders as `"a and b"`. -/
def unparse : Node → String
  | .BoolOp _ op vs =>
      String.intercalate
        (match op with
         | .And => " and "
         | .Or => " or "
         | .OtherOp s => " " ++ s ++ " ")
        (unparseList vs)
  | .UnaryOp _ uop operand =>
      (match uop with
       | .Not => "not"
       | .UOther s => s) ++ " " ++ unparse operand
  | .NameA _ ident => ident
  | .StrA _ s => "\"" ++ s ++ "\""
  | .NumA _ n => toString n
  | .ListA _ elts => "[" ++ String.intercalate ", " (unparseList elts) ++ "]"
  | .SetA _ elts => "\x7b" ++ String.intercalate ", " (unparseList elts) ++ "\x7d"
  | .DictA _ elts => "\x7b" ++ String.intercalate ", " (unparseList elts) ++ "\x7d"
  | .Other _ kind _ => kind

/-- Renders a list of nodes (used for the operand lists above). -/
def unparseList : List Node → List String
  | [] => []
  | v :: rest => unparse v :: unparseList rest
end

mutual
/-- The `probably_truthy` candidate filter (src lines 108-116): a node is a
candidate only if it is a `BoolOp` and every direct operand passes the inner
`test`; `truthyAll` is `all(map(test, node.values))`. -/
def probably_truthy : Node → Bool
  | .BoolOp _ _ values => truthyAll values
  | _ => false

/-- The inner `test` (src lines 109-113): a `BoolOp` operand is tested with
`probably_truthy(node)` — which unfolds to `truthyAll` of its values — and
any other operand passes iff its class name is not literal-like. -/
def truthyTest : Node → Bool
  | .BoolOp _ _ vs => truthyAll vs
  | n => !(isLiteralLike n)

/-- `all(map(test, values))` (src line 116). -/
def truthyAll : List Node → Bool
  | [] => true
  | v :: rest => truthyTest v && truthyAll rest
end

mutual
/-- The expression collector `collect_bool_ops` (src lines 119-130): append
the node itself when it is a candidate `BoolOp`, then recurse into every
ast-valued field (and every ast element of every list-valued field) in
`ast.iter_fields` document order.  Operator objects (`ast.And()` etc.) have
no fields and are never `BoolOp`s, so recursing into them contributes
nothing and they are not represented as child nodes here. -/
def collect_bool_ops (node : Node) : List Node :=
  (if isBoolOp node && probably_truthy node then [node] else []) ++
  (match node with
   | .BoolOp _ _ values => collectChildren values
   | .UnaryOp _ _ operand => collect_bool_ops operand
   | .ListA _ elts => collectChildren elts
   | .SetA _ elts => collectChildren elts
   | .DictA _ elts => collectChildren elts
   | .Other _ _ children => collectChildren children
   | _ => [])

/-- The recursion of `collect_bool_ops` over a list-valued field
(src lines 124-127). -/
def collectChildren : List Node → List Node
  | [] => []
  | v :: rest => collect_bool_ops v ++ collectChildren rest
end

/-- The `Name` class (src lines 90-105): an operand's canonical textual
label together with the set of node identities that produced it
(`self.nodes = set([node])` at construction). -/
structure PyName where
  name : String
  nodes : List Nat
deriving DecidableEq

mutual
/-- The operand extractor `collect_names` (src lines 133-147).

The source accumulates `Name` objects in an `OrderedSet` (src lines 31-87)
via `names | OrderedSet([...])` / `names | collect_names(value)`, which
builds a fresh `OrderedSet` and `add`s every element of both operands in
order.  `OrderedSet.add` (src lines 46-50) inserts `key` unless `key in
self.map`, a lookup in a dict keyed by the `Name` object.  The program runs
under Python 2 (`collections.MutableSet`, and `map(...) + [...]` at src
line 182 is list concatenation), where `Name` — defining `__eq__` but no
`__hash__` — keeps the default identity-based hash; every `Name` object
created during extraction is fresh, so the dict lookup never finds a
previously inserted label-equal `Name`, every `add` inserts, and the merge
method `Name.__or__` (src lines 98-100) is never invoked.  Accumulation is
therefore ordered concatenation of fresh one-node `Name` entries, which is
how it is modelled here. -/
def collect_names : Node → List PyName
  | .BoolOp _ _ values => collectOperandNames values
  | .UnaryOp _ _ operand => collect_names operand
  | n => [⟨unparse n, [nodeId n]⟩]

/-- The loop over `node.values` (src lines 136-141): an operand whose class
name is `BoolOp` or `UnaryOp` (any unary operator) is recursively extracted
and its names appended; any other operand contributes a single fresh
`Name(astunparse.unparse(value).strip(), value)`. -/
def collectOperandNames : List Node → List PyName
  | [] => []
  | v :: rest =>
      (if isBoolOp v || isUnaryOp v then collect_names v
       else [⟨unparse v, [nodeId v]⟩]) ++ collectOperandNames rest
end

/-- Errors raised by the evaluator: `NotImplementedError` for an unsupported
operator class (src lines 164-167 and 171-174), the uncaught `ValueError`
from `list(names).index(node)` when an atomic node matches no registered
operand (src line 176), and the `assert` at src line 151. -/
inductive EvalErr where
  | unsupportedOp (opClassName : String)
  | lookupFailure (nid : Nat)
  | assertionFailure
deriving DecidableEq

/-- `list(names).index(value)` (src lines 156, 176): the first index whose
`Name` equals `value`; `Name.__eq__` with an ast node (src lines 94-96)
tests membership of the node, by identity, in the `Name`'s node set.
`none` models the `ValueError` when no entry matches. -/
def nameIndex (names : List PyName) (nid : Nat) : Option Nat :=
  names.findIdx? (fun nm => nm.nodes.contains nid)

mutual
/-- The evaluator `evaluate(node, names, conditions)` (src lines 150-177),
with exceptions modelled by `Except`. -/
def evaluate (node : Node) (names : List PyName) (conditions : List Bool) :
    Except EvalErr Bool :=
  if names.length = conditions.length then
    match node with
    | .BoolOp _ op values =>
        match evalValues values names conditions with
        | .error e => .error e
        | .ok result =>
            match op with
            | .And => .ok (result.all id)
            | .Or => .ok (result.any id)
            | .OtherOp s => .error (.unsupportedOp s)
    | .UnaryOp _ uop operand =>
        match uop with
        | .Not =>
            match evaluate operand names conditions with
            | .ok b => .ok (!b)
            | .error e => .error e
        | .UOther s => .error (.unsupportedOp s)
    | n =>
        match nameIndex names (nodeId n) with
        | some idx => .ok (conditions.getD idx false)
        | none => .error (.lookupFailure (nodeId n))
  else .error .assertionFailure

/-- The loop over `node.values` of the `BoolOp` branch (src lines 153-159):
for each operand try the `names` lookup, and on `ValueError` fall back to a
recursive evaluation; any exception of the recursive call propagates. -/
def evalValues (values : List Node) (names : List PyName)
    (conditions : List Bool) : Except EvalErr (List Bool) :=
  match values with
  | [] => .ok []
  | v :: rest =>
      match
        (match nameIndex names (nodeId v) with
         | some idx => Except.ok (conditions.getD idx false)
         | none => evaluate v names conditions) with
      | .error e => .error e
      | .ok b =>
          match evalValues rest names conditions with
          | .error e => .error e
          | .ok bs => .ok (b :: bs)
end

/-- `itertools.product([False, True], repeat=n)` (src line 181): all length-n
boolean tuples, first position varying slowest, `False` before `True`. -/
def productBool : Nat → List (List Bool)
  | 0 => [[]]
  | n + 1 => (productBool n).map (false :: ·) ++ (productBool n).map (true :: ·)

/-- A table cell: the header row holds strings, data rows hold booleans
(`str` is applied only at rendering time, src line 193). -/
inductive Cell where
  | s (v : String)
  | b (v : Bool)
deriving DecidableEq

/-- The data-row loop of `truth_table` (src lines 183-184): one row per
assignment, the assignment's booleans followed by the evaluation result;
an exception aborts the whole table. -/
def buildDataRows (node : Node) (names : List PyName) :
    List (List Bool) → Except EvalErr (List (List Cell))
  | [] => .ok []
  | c :: rest =>
      match evaluate node names c with
      | .error e => .error e
      | .ok r =>
          match buildDataRows node names rest with
          | .error e => .error e
          | .ok rows => .ok ((c.map Cell.b ++ [Cell.b r]) :: rows)

/-- The table builder `truth_table` (src lines 179-185): header row of
operand labels (`str(Name)` is the label, src lines 101-102) followed by the
expression's canonical text, then one data row per assignment. -/
def truth_table (node : Node) : Except EvalErr (List (List Cell)) :=
  let names := collect_names node
  match buildDataRows node names (productBool names.length) with
  | .error e => .error e
  | .ok dataRows =>
      .ok ((names.map (fun nm => Cell.s nm.name) ++ [Cell.s (unparse node)]) :: dataRows)

/-- `str(column)` as applied by the renderer (src line 193): Python renders
booleans as `True` / `False` and leaves strings unchanged. -/
def cellStr : Cell → String
  | .s v => v
  | .b true => "True"
  | .b false => "False"

/-- A string of `n` copies of character `c` (Python `c * n`). -/
def repChar (c : Char) (n : Nat) : String :=
  String.mk (List.replicate n c)

/-- Python `'{:^{w}}'.format(s, w)` center alignment: a string already at
least `w` wide is unchanged; otherwise the slack is split with the extra
space on the right. -/
def center (str : String) (w : Nat) : String :=
  if w ≤ str.length then str
  else
    repChar ' ' ((w - str.length) / 2) ++ str ++
      repChar ' ' ((w - str.length) - (w - str.length) / 2)

/-- The column-width loop of `simple_table` (src lines 191-196): walk one
row, replacing each tracked size by the cell's printed length when that is
larger.  A row shorter than the size list leaves the remaining sizes
untouched (the loop simply ends); on a row longer than the size list the
source raises `IndexError` — that case is outside the renderer's
rectangularity precondition and is truncated here. -/
def updateSizes : List Nat → List Cell → List Nat
  | sz, [] => sz
  | [], _ => []
  | s :: sz, c :: row => max s (cellStr c).length :: updateSizes sz row

/-- `column_sizes` before padding (src lines 190-196): start from
`[0] * len(lol[0])` and fold the width loop over all rows. -/
def computeColumnSizes (lol : List (List Cell)) : List Nat :=
  lol.foldl updateSizes (List.replicate (lol.headD []).length 0)

/-- One output line (src lines 200-202): every cell of the row centered in
its column's field width, columns joined edge-to-edge. -/
def renderRow (row : List Cell) (sizes : List Nat) : String :=
  String.join ((row.zip sizes).map (fun p => center (cellStr p.1) p.2))

/-- The separator line (src lines 204-206): per column, `size - sep` dashes
centered in the same field width. -/
def sepLine (sizes : List Nat) (pad : Nat) : String :=
  String.join (sizes.map (fun sz => center (repChar '-' (sz - pad)) sz))

/-- The line-building loop of `simple_table` (src lines 199-206): one line
per row, with the separator line inserted immediately after row 0. -/
def tableLines (lol : List (List Cell)) (sizes : List Nat) (pad : Nat) :
    List String :=
  match lol with
  | [] => []
  | hd :: tl =>
      renderRow hd sizes :: sepLine sizes pad :: tl.map (fun r => renderRow r sizes)

/-- The renderer `simple_table(lol, sep=4)` (src lines 188-207): field
widths are the per-column maxima plus the padding constant `pad`
(default 4), and the lines are joined with newlines. -/
def simple_table (lol : List (List Cell)) (pad : Nat) : String :=
  String.intercalate "\n"
    (tableLines lol ((computeColumnSizes lol).map (· + pad)) pad)

/-! ## Definitions taken from the specification's words

These are compared against the embedded source functions; they are written
from the claims, not from the code. -/

mutual
/-- Modelled from the claim (C7): the nodes of a tree in pre-order,
depth-first document order — a node first, then the subtrees of its fields
left to right. -/
def preorder (node : Node) : List Node :=
  node ::
  (match node with
   | .BoolOp _ _ values => preorderList values
   | .UnaryOp _ _ operand => preorder operand
   | .ListA _ elts => preorderList elts
   | .SetA _ elts => preorderList elts
   | .DictA _ elts => preorderList elts
   | .Other _ _ children => preorderList children
   | _ => [])

/-- Document-order traversal of a list of sibling subtrees. -/
def preorderList : List Node → List Node
  | [] => []
  | v :: rest => preorder v ++ preorderList rest
end

/-- Modelled from the claim (C4): the `n`-digit binary representation of
`k`, most significant digit first, with `false = 0` and `true = 1`. -/
def natToBitsMSB : Nat → Nat → List Bool
  | 0, _ => []
  | n + 1, k => natToBitsMSB n (k / 2) ++ [k % 2 == 1]

/-- Modelled from the claim (C9): the maximum printed width of column `i`
across all rows. -/
def colWidth (lol : List (List Cell)) (i : Nat) : Nat :=
  (lol.map (fun r => (cellStr (r.getD i (Cell.s ""))).length)).foldl max 0

/-- Modelled from the claim (C9): each column's field width is its maximum
printed width across all rows plus the padding constant. -/
def specWidths (lol : List (List Cell)) (pad : Nat) : List Nat :=
  (List.range (lol.headD []).length).map (fun i => colWidth lol i + pad)

/-- Modelled from the claim (C9): the header line with every cell centered
in its field width, then one separator line of dashes of length
(width − padding) center-padded to the same field widths, then the data
lines. -/
def specLines (lol : List (List Cell)) (pad : Nat) : List String :=
  match lol with
  | [] => []
  | hd :: tl =>
      renderRow hd (specWidths lol pad) :: sepLine (specWidths lol pad) pad ::
        tl.map (fun r => renderRow r (specWidths lol pad))

/-! ## Concrete expression trees used as inputs -/

/-- The expression `a and b` (spec §8 end-to-end example). -/
def exAB : Node :=
  .BoolOp 0 .And [.NameA 1 "a", .NameA 2 "b"]

/-- The expression `a and b and a` (spec §8 duplicate-operand example). -/
def exABA : Node :=
  .BoolOp 0 .And [.NameA 1 "a", .NameA 2 "b", .NameA 3 "a"]

/-- The expression `a and (- b)`: a `BoolOp` whose second operand is a
`UnaryOp` with the non-`Not` operator `USub`. -/
def exUSub : Node :=
  .BoolOp 0 .And [.NameA 1 "a", .UnaryOp 2 (.UOther "USub") (.NameA 3 "b")]

/-- The all-literal expression `"x" and "y"` (spec §8 filter exclusion). -/
def exStrAnd : Node :=
  .BoolOp 5 .And [.StrA 6 "x", .StrA 7 "y"]

/-- The inner candidate `b or c` of `exNested`. -/
def exInner : Node :=
  .BoolOp 1 .Or [.NameA 2 "b", .NameA 3 "c"]

/-- The expression `(b or c) and a`: a candidate containing a nested
candidate. -/
def exNested : Node :=
  .BoolOp 0 .And [exInner, .NameA 4 "a"]

/-- The table the source builds for `exAB` (`a and b`). -/
def tableAB : List (List Cell) :=
  [[.s "a", .s "b", .s "a and b"],
   [.b false, .b false, .b false],
   [.b false, .b true, .b false],
   [.b true, .b false, .b false],
   [.b true, .b true, .b true]]

/-- The table the source builds for `exABA` (`a and b and a`): the two
occurrences of `a` are treated as independent variables. -/
def tableABA : List (List Cell) :=
  [[.s "a", .s "b", .s "a", .s "a and b and a"],
   [.b false, .b false, .b false, .b false],
   [.b false, .b false, .b true, .b false],
   [.b false, .b true, .b false, .b false],
   [.b false, .b true, .b true, .b false],
   [.b true, .b false, .b false, .b false],
   [.b true, .b false, .b true, .b false],
   [.b true, .b true, .b false, .b false],
   [.b true, .b true, .b true, .b true]]

/-- A small rectangular table (spec §8 rendering example). -/
def demoTable : List (List Cell) :=
  [[.s "a", .s "b", .s "e"],
   [.b false, .b true, .b true]]

/-! ## Helper lemmas -/

/-- The operand loop of the extractor is the flattening of a per-operand
case split: recursively extracted names for `BoolOp`/`UnaryOp` operands, a
singleton fresh `Name` for any other operand. -/
theorem collectOperandNames_eq_flatten (l : List Node) :
    collectOperandNames l
      = (l.map (fun v => if isBoolOp v || isUnaryOp v then collect_names v
          else [⟨unparse v, [nodeId v]⟩])).flatten := by
  induction l with
  | nil => rfl
  | cons v rest ih => simp only [collectOperandNames, List.map_cons, List.flatten_cons, ih]

/-! ## Claims -/

/-- C1 (code_bug evidence).  The claim — and spec §3 / §8 — says that
extracting operands from `a and b and a` collapses the two occurrences of
`a` into one operand whose node-identity set is the union of both
occurrences.  The code does not: under Python 2 the `Name` class's default
identity hash makes `OrderedSet.add`'s duplicate check miss label-equal
duplicates, so extraction yields three operands `a`, `b`, `a`, each keeping
only its own node identity, and the merge `Name.__or__` is never invoked. -/
theorem C1_code_behavior :
    (collect_names exABA).map PyName.name = ["a", "b", "a"]
  ∧ (collect_names exABA).map PyName.nodes = [[1], [2], [3]]
  ∧ (collect_names exABA).length ≠ 2 :=
  ⟨rfl, rfl, by decide⟩

/-- C2 (counterexample).  The claim says a `UnaryOp` operand with a
non-`Not` operator (here `- b`, operator `USub`) is rendered to its
canonical label and inserted as a single atomic operand of `a and (- b)`;
the code instead flattens through it and registers the inner operand `b`. -/
theorem C2_counterexample :
    (collect_names exUSub).map PyName.name = ["a", "b"]
  ∧ (collect_names exUSub).map PyName.name
      ≠ ["a", unparse (Node.UnaryOp 2 (UnaryOperator.UOther "USub") (Node.NameA 3 "b"))] :=
  ⟨rfl, by decide⟩

/-- C2 (amended).  In the operand extractor, a direct operand of a
`BoolOp` is recursively flattened exactly when it is itself a `BoolOp` or a
`UnaryOp` with *any* operator (not only `Not`); any other operand is
rendered to its canonical label and inserted as a single atomic operand.
Moreover extraction of a `UnaryOp` node passes through to its operand
regardless of the unary operator. -/
theorem C2_flattening (i : Nat) (op : BoolOperator) (vs : List Node)
    (u : UnaryOperator) (nd : Node) :
    collect_names (Node.BoolOp i op vs)
      = (vs.map (fun v => if isBoolOp v || isUnaryOp v then collect_names v
          else [⟨unparse v, [nodeId v]⟩])).flatten
  ∧ collect_names (Node.UnaryOp i u nd) = collect_names nd :=
  ⟨collectOperandNames_eq_flatten vs, rfl⟩

/-- C5.  End-to-end on `a and b`: operands `a`, `b` and exactly the five
claimed rows, header `("a", "b", "a and b")` then the four assignments with
their conjunction values. -/
theorem C5_end_to_end :
    (collect_names exAB).map PyName.name = ["a", "b"]
  ∧ truth_table exAB = Except.ok
      [[Cell.s "a", Cell.s "b", Cell.s "a and b"],
       [Cell.b false, Cell.b false, Cell.b false],
       [Cell.b false, Cell.b true, Cell.b false],
       [Cell.b true, Cell.b false, Cell.b false],
       [Cell.b true, Cell.b true, Cell.b true]] :=
  ⟨rfl, rfl⟩

/-- C10.  The candidate filter and the collector accept `a and (- b)`,
the extractor flattens through the `USub` node and registers only the inner
operand `b`, and `truth_table` then fails with the unsupported-operator
error: the `UnaryOp` node matches no registered operand, so the evaluator
recurses into it and rejects its non-`Not` operator. -/
theorem C10_usub_unsupported :
    probably_truthy exUSub = true
  ∧ collect_bool_ops exUSub = [exUSub]
  ∧ (collect_names exUSub).map PyName.name = ["a", "b"]
  ∧ truth_table exUSub = Except.error (EvalErr.unsupportedOp "USub") :=
  ⟨rfl, rfl, rfl, rfl⟩

/-! ## Further helper lemmas -/

/-- `all(map(test, l))` is true iff every element passes `test`. -/
theorem truthyAll_iff (l : List Node) :
    truthyAll l = true ↔ ∀ v ∈ l, truthyTest v = true := by
  induction l with
  | nil => simp [truthyAll]
  | cons v rest ih => simp [truthyAll, Bool.and_eq_true, ih]

/-- The inner `test` of the candidate filter, characterised by a case split
on whether the operand is a `BoolOp`. -/
theorem truthyTest_iff (v : Node) :
    truthyTest v = true ↔
      ((isBoolOp v = true → probably_truthy v = true) ∧
       (isBoolOp v = false → isLiteralLike v = false)) := by
  cases v <;> simp [truthyTest, isBoolOp, isLiteralLike, probably_truthy]

mutual
/-- The collector returns exactly the candidate nodes of the pre-order
traversal, in traversal order. -/
theorem collect_eq_filter : (n : Node) →
    collect_bool_ops n = (preorder n).filter probably_truthy
  | .BoolOp i op values => by
      have hc := collectChildren_eq_filter values
      cases h : probably_truthy (Node.BoolOp i op values) <;>
        simp [collect_bool_ops, preorder, isBoolOp, h, hc]
  | .UnaryOp i u operand => by
      have hc := collect_eq_filter operand
      simp [collect_bool_ops, preorder, isBoolOp, probably_truthy, hc]
  | .NameA i s => by simp [collect_bool_ops, preorder, isBoolOp, probably_truthy]
  | .StrA i s => by simp [collect_bool_ops, preorder, isBoolOp, probably_truthy]
  | .NumA i n => by simp [collect_bool_ops, preorder, isBoolOp, probably_truthy]
  | .ListA i elts => by
      have hc := collectChildren_eq_filter elts
      simp [collect_bool_ops, preorder, isBoolOp, probably_truthy, hc]
  | .SetA i elts => by
      have hc := collectChildren_eq_filter elts
      simp [collect_bool_ops, preorder, isBoolOp, probably_truthy, hc]
  | .DictA i elts => by
      have hc := collectChildren_eq_filter elts
      simp [collect_bool_ops, preorder, isBoolOp, probably_truthy, hc]
  | .Other i k children => by
      have hc := collectChildren_eq_filter children
      simp [collect_bool_ops, preorder, isBoolOp, probably_truthy, hc]

/-- List version of `collect_eq_filter`. -/
theorem collectChildren_eq_filter : (l : List Node) →
    collectChildren l = (preorderList l).filter probably_truthy
  | [] => rfl
  | v :: rest => by
      have h1 := collect_eq_filter v
      have h2 := collectChildren_eq_filter rest
      simp [collectChildren, preorderList, h1, h2]
end

/-- `List.range (2 * m)` split into consecutive pairs. -/
theorem range_two_mul (m : Nat) :
    List.range (2 * m) = (List.range m).flatMap (fun j => [2 * j, 2 * j + 1]) := by
  induction m with
  | zero => rfl
  | succ m ih =>
    have h2 : 2 * (m + 1) = 2 * m + 1 + 1 := by ring
    rw [h2, List.range_succ, List.range_succ, List.range_succ, List.flatMap_append, ih]
    simp

/-- The assignment enumeration also satisfies the "append the fastest digit
last" recursion. -/
theorem productBool_snoc (n : Nat) :
    productBool (n + 1)
      = (productBool n).flatMap (fun p => [p ++ [false], p ++ [true]]) := by
  induction n with
  | zero => rfl
  | succ n ih =>
    calc productBool (n + 1 + 1)
        = (productBool (n + 1)).map (false :: ·) ++ (productBool (n + 1)).map (true :: ·) := rfl
      _ = ((productBool n).flatMap (fun p => [p ++ [false], p ++ [true]])).map (false :: ·)
            ++ ((productBool n).flatMap (fun p => [p ++ [false], p ++ [true]])).map (true :: ·) := by
            rw [ih]
      _ = ((productBool n).map (false :: ·) ++ (productBool n).map (true :: ·)).flatMap
            (fun p => [p ++ [false], p ++ [true]]) := by
            simp [List.map_flatMap, List.flatMap_map, List.flatMap_append]
      _ = (productBool (n + 1)).flatMap (fun p => [p ++ [false], p ++ [true]]) := rfl

/-- The assignment enumeration is binary counting: entry `k` of
`productBool n` is the `n`-digit binary representation of `k`, most
significant digit first, `false = 0`, `true = 1`. -/
theorem productBool_eq_counting (n : Nat) :
    productBool n = (List.range (2 ^ n)).map (natToBitsMSB n) := by
  induction n with
  | zero => rfl
  | succ n ih =>
    rw [productBool_snoc, ih]
    rw [show (2 : Nat) ^ (n + 1) = 2 * 2 ^ n by ring, range_two_mul]
    rw [List.flatMap_map, List.map_flatMap]
    congr 1
    funext j
    have hd0 : 2 * j / 2 = j := by omega
    have hm0 : 2 * j % 2 = 0 := by omega
    have hd1 : (2 * j + 1) / 2 = j := by omega
    have hm1 : (2 * j + 1) % 2 = 1 := by omega
    simp [natToBitsMSB, hd0, hm0, hd1, hm1]

/-- There are `2 ^ n` assignments for `n` operands. -/
theorem productBool_length (n : Nat) : (productBool n).length = 2 ^ n := by
  induction n with
  | zero => rfl
  | succ n ih => simp [productBool, ih, pow_succ]; ring

/-- Every enumerated assignment has one boolean per operand. -/
theorem productBool_mem_length {n : Nat} {c : List Bool} (h : c ∈ productBool n) :
    c.length = n := by
  induction n generalizing c with
  | zero => simp [productBool] at h; subst h; rfl
  | succ n ih =>
      simp [productBool] at h
      rcases h with ⟨c2, hc2, rfl⟩ | ⟨c2, hc2, rfl⟩ <;> simp [ih hc2]

/-- When the data-row loop succeeds it yields one row per assignment, and
every row is an assignment's booleans followed by one result cell. -/
theorem buildDataRows_ok (node : Node) (names : List PyName) :
    ∀ (cs : List (List Bool)) (rows : List (List Cell)),
      buildDataRows node names cs = Except.ok rows →
      rows.length = cs.length ∧
      ∀ r ∈ rows, ∃ c ∈ cs, ∃ b0 : Bool, r = c.map Cell.b ++ [Cell.b b0] := by
  intro cs
  induction cs with
  | nil =>
      intro rows h
      simp [buildDataRows] at h
      subst h
      simp
  | cons c rest ih =>
      intro rows h
      cases he : evaluate node names c with
      | error e => simp [buildDataRows, he] at h
      | ok b0 =>
          cases hb : buildDataRows node names rest with
          | error e => simp [buildDataRows, he, hb] at h
          | ok rows2 =>
              simp [buildDataRows, he, hb] at h
              subst h
              obtain ⟨hlen, hmem⟩ := ih rows2 hb
              refine ⟨by simp [hlen], ?_⟩
              intro r hr
              rcases List.mem_cons.mp hr with rfl | hr2
              · exact ⟨c, by simp, b0, rfl⟩
              · obtain ⟨c2, hc2, b2, hb2⟩ := hmem r hr2
                exact ⟨c2, by simp [hc2], b2, hb2⟩

/-- The width loop preserves the number of tracked columns. -/
theorem updateSizes_length (sz : List Nat) (row : List Cell)
    (h : row.length = sz.length) : (updateSizes sz row).length = sz.length := by
  induction sz generalizing row with
  | nil =>
      cases row with
      | nil => rfl
      | cons c r => simp at h
  | cons s0 sz ih =>
      cases row with
      | nil => simp at h
      | cons c r =>
          simp only [updateSizes, List.length_cons]
          rw [ih r (by simpa using h)]

/-- One step of the width loop takes the pointwise maximum. -/
theorem updateSizes_getD (sz : List Nat) (row : List Cell)
    (h : row.length = sz.length) (i : Nat) :
    (updateSizes sz row).getD i 0
      = max (sz.getD i 0) (cellStr (row.getD i (Cell.s ""))).length := by
  induction sz generalizing row i with
  | nil =>
      cases row with
      | nil => simp [updateSizes, cellStr]
      | cons c r => simp at h
  | cons s0 sz ih =>
      cases row with
      | nil => simp at h
      | cons c r =>
          cases i with
          | zero => simp [updateSizes]
          | succ i2 =>
              simp only [updateSizes, List.getD_cons_succ]
              exact ih r (by simpa using h) i2

/-- Folding the width loop over rectangular rows keeps the column count. -/
theorem foldl_updateSizes_length (rows : List (List Cell)) :
    ∀ acc : List Nat, (∀ r ∈ rows, r.length = acc.length) →
    (rows.foldl updateSizes acc).length = acc.length := by
  induction rows with
  | nil => intro acc h; rfl
  | cons r rs ih =>
      intro acc h
      have hr := h r (by simp)
      have h1 := updateSizes_length acc r hr
      rw [List.foldl_cons,
        ih (updateSizes acc r) (fun r2 hr2 => by rw [h1]; exact h r2 (by simp [hr2])), h1]

/-- Folding the width loop computes, per column, the running maximum of the
cells' printed widths. -/
theorem foldl_updateSizes_getD (rows : List (List Cell)) :
    ∀ (acc : List Nat), (∀ r ∈ rows, r.length = acc.length) → ∀ i,
    (rows.foldl updateSizes acc).getD i 0
      = (rows.map (fun r => (cellStr (r.getD i (Cell.s ""))).length)).foldl max
          (acc.getD i 0) := by
  induction rows with
  | nil => intro acc h i; rfl
  | cons r rs ih =>
      intro acc h i
      have hr : r.length = acc.length := h r (by simp)
      have hlen := updateSizes_length acc r hr
      rw [List.foldl_cons, List.map_cons, List.foldl_cons,
        ih (updateSizes acc r) (fun r2 hr2 => by rw [hlen]; exact h r2 (by simp [hr2])) i,
        updateSizes_getD acc r hr i]

/-- On a rectangular table, the source's imperative column-size computation
equals the per-column maximum of the printed widths. -/
theorem computeColumnSizes_eq (lol : List (List Cell))
    (hrect : ∀ r ∈ lol, r.length = (lol.headD []).length) :
    computeColumnSizes lol
      = (List.range (lol.headD []).length).map (colWidth lol) := by
  have hacc : ∀ r ∈ lol, r.length = (List.replicate (lol.headD []).length 0).length := by
    simpa using hrect
  apply List.ext_getElem
  · rw [computeColumnSizes, foldl_updateSizes_length lol _ hacc]
    simp
  · intro i h1 h2
    have hrepl : (List.replicate (lol.headD []).length 0).getD i 0 = 0 := by
      simp [List.getD]
    rw [← List.getD_eq_getElem (computeColumnSizes lol) 0 h1]
    rw [computeColumnSizes, foldl_updateSizes_getD lol _ hacc i, hrepl]
    simp [colWidth]

/-- The padded column sizes are exactly the claimed field widths. -/
theorem sizes_eq_specWidths (lol : List (List Cell)) (pad : Nat)
    (hrect : ∀ r ∈ lol, r.length = (lol.headD []).length) :
    (computeColumnSizes lol).map (· + pad) = specWidths lol pad := by
  rw [computeColumnSizes_eq lol hrect, specWidths, List.map_map]
  rfl

/-! ## Remaining claims -/

/-- C3 (counterexample).  The claim counts `n` as the number of *distinct*
atomic operands: `a and b and a` has two distinct operands, yet the code
builds a table of `2 ^ 3 + 1 = 9` rows of arity `4` (the duplicate operand
is not collapsed), not `2 ^ 2 + 1 = 5` rows of arity `3`. -/
theorem C3_counterexample :
    (((collect_names exABA).map PyName.name).dedup).length = 2
  ∧ truth_table exABA = Except.ok tableABA
  ∧ tableABA.length = 9
  ∧ tableABA.length ≠ 2 ^ 2 + 1
  ∧ (tableABA.headD []).length ≠ 2 + 1 :=
  ⟨by decide, rfl, rfl, by decide, by decide⟩

/-- C3 (amended).  With `n` the length of the operand list returned by the
extractor — one entry per flattened operand occurrence, label-duplicates
not collapsed — `truth_table` returns, whenever evaluation succeeds,
exactly `2 ^ n + 1` rows (one header plus one row per truth assignment),
every row of arity `n + 1`. -/
theorem C3_table_shape (node : Node) (rows : List (List Cell))
    (h : truth_table node = Except.ok rows) :
    rows.length = 2 ^ (collect_names node).length + 1
  ∧ ∀ r ∈ rows, r.length = (collect_names node).length + 1 := by
  cases hb : buildDataRows node (collect_names node)
      (productBool (collect_names node).length) with
  | error e => simp [truth_table, hb] at h
  | ok dataRows =>
      simp [truth_table, hb] at h
      subst h
      obtain ⟨hlen, hmem⟩ := buildDataRows_ok node (collect_names node) _ dataRows hb
      constructor
      · simp [hlen, productBool_length]
      · intro r hr
        rcases List.mem_cons.mp hr with rfl | hr2
        · simp
        · obtain ⟨c2, hc2, b2, rfl⟩ := hmem r hr2
          simp [productBool_mem_length hc2]

/-- C3 (witness): the amended shape at the concrete table for `a and b`. -/
theorem C3_witness :
    truth_table exAB = Except.ok tableAB ∧
    tableAB.length = 2 ^ (collect_names exAB).length + 1 :=
  ⟨rfl, (C3_table_shape exAB tableAB rfl).1⟩

/-- C4.  For every operand count `n` the table builder's enumeration
`itertools.product([False, True], repeat=n)` lists the `2 ^ n` assignments
in binary counting order, leftmost operand most significant, `False`
before `True`; in particular for two operands the order is
`(F,F), (F,T), (T,F), (T,T)`. -/
theorem C4_assignment_order :
    (∀ n : Nat, productBool n = (List.range (2 ^ n)).map (natToBitsMSB n))
  ∧ productBool 2 = [[false, false], [false, true], [true, false], [true, true]] :=
  ⟨productBool_eq_counting, rfl⟩

/-- C6.  `probably_truthy` holds exactly of a `BoolOp` each of whose direct
operands either is a `BoolOp` recursively satisfying the predicate or is
not of a literal-like kind (string, numeric, list, set, mapping);
consequently a non-`BoolOp` node is never a candidate, a `BoolOp` with no
operands is vacuously a candidate, and the all-literal `"x" and "y"` is
never reported by the collector, whatever tree it is searched in. -/
theorem C6_filter_characterization (node root : Node) (j : Nat) (bop : BoolOperator) :
    (probably_truthy node = true ↔
      ∃ i op vs, node = Node.BoolOp i op vs ∧
        ∀ v ∈ vs, (isBoolOp v = true → probably_truthy v = true) ∧
                  (isBoolOp v = false → isLiteralLike v = false))
  ∧ (isBoolOp node = false → probably_truthy node = false)
  ∧ probably_truthy (Node.BoolOp j bop []) = true
  ∧ exStrAnd ∉ collect_bool_ops root := by
  refine ⟨?_, ?_, rfl, ?_⟩
  · cases node with
    | BoolOp i op vs =>
        constructor
        · intro h
          exact ⟨i, op, vs, rfl,
            fun v hv => (truthyTest_iff v).mp ((truthyAll_iff vs).mp h v hv)⟩
        · rintro ⟨i2, op2, vs2, heq, hall⟩
          injection heq with h1 h2 h3
          subst h3
          exact (truthyAll_iff vs).mpr fun v hv => (truthyTest_iff v).mpr (hall v hv)
    | UnaryOp i u operand => simp [probably_truthy]
    | NameA i s => simp [probably_truthy]
    | StrA i s => simp [probably_truthy]
    | NumA i n => simp [probably_truthy]
    | ListA i elts => simp [probably_truthy]
    | SetA i elts => simp [probably_truthy]
    | DictA i elts => simp [probably_truthy]
    | Other i k ch => simp [probably_truthy]
  · cases node <;> simp [isBoolOp, probably_truthy]
  · intro hmem
    rw [collect_eq_filter root] at hmem
    have h := List.of_mem_filter hmem
    exact absurd h (by decide)

/-- C6 (witness): the characterisation applied to the concrete candidate
`a and b`. -/
theorem C6_witness : probably_truthy exAB = true :=
  (C6_filter_characterization exAB exAB 0 BoolOperator.And).1.mpr
    ⟨0, BoolOperator.And, [Node.NameA 1 "a", Node.NameA 2 "b"], rfl, by decide⟩

/-- C7.  The collector returns exactly the candidate `BoolOp` nodes of the
tree in pre-order, depth-first document order — a candidate first, then its
subtrees — and a candidate nested inside another candidate is also
reported, as on `(b or c) and a`. -/
theorem C7_collector_preorder :
    (∀ root : Node, collect_bool_ops root = (preorder root).filter probably_truthy)
  ∧ collect_bool_ops exNested = [exNested, exInner] :=
  ⟨collect_eq_filter, rfl⟩

/-- C8.  The evaluator fails with the unsupported-operator error whenever a
`BoolOp` operator other than `And`/`Or` is dispatched on (once its operand
values are obtained), and unconditionally for a `UnaryOp` operator other
than `Not`; an atomic node matching no registered operand fails with the
lookup error.  In each case the result is an error, never a defaulted
boolean. -/
theorem C8_evaluator_errors (i : Nat) (s : String) (vs : List Node)
    (nd atom : Node) (names : List PyName) (conds : List Bool)
    (results : List Bool) (hlen : names.length = conds.length) :
    (evalValues vs names conds = Except.ok results →
      evaluate (Node.BoolOp i (BoolOperator.OtherOp s) vs) names conds
        = Except.error (EvalErr.unsupportedOp s))
  ∧ evaluate (Node.UnaryOp i (UnaryOperator.UOther s) nd) names conds
      = Except.error (EvalErr.unsupportedOp s)
  ∧ (isBoolOp atom = false → isUnaryOp atom = false →
      nameIndex names (nodeId atom) = none →
      evaluate atom names conds = Except.error (EvalErr.lookupFailure (nodeId atom))) := by
  refine ⟨?_, ?_, ?_⟩
  · intro hv
    simp [evaluate, hlen, hv]
  · simp [evaluate, hlen]
  · intro h1 h2 h3
    cases atom <;> simp_all [evaluate, isBoolOp, isUnaryOp, nodeId]

/-- C8 (witness): the three error cases at concrete inputs. -/
theorem C8_witness :
    evaluate (Node.BoolOp 0 (BoolOperator.OtherOp "Xor") []) [] []
      = Except.error (EvalErr.unsupportedOp "Xor")
  ∧ evaluate (Node.UnaryOp 0 (UnaryOperator.UOther "USub") (Node.NameA 1 "a")) [] []
      = Except.error (EvalErr.unsupportedOp "USub")
  ∧ evaluate (Node.NameA 7 "z") [] [] = Except.error (EvalErr.lookupFailure 7) :=
  ⟨(C8_evaluator_errors 0 "Xor" [] (Node.NameA 1 "a") (Node.NameA 7 "z") [] [] [] rfl).1 rfl,
   (C8_evaluator_errors 0 "USub" [] (Node.NameA 1 "a") (Node.NameA 7 "z") [] [] [] rfl).2.1,
   (C8_evaluator_errors 0 "x" [] (Node.NameA 1 "a") (Node.NameA 7 "z") [] [] [] rfl).2.2
     rfl rfl rfl⟩

/-- C9.  On every rectangular, non-empty table the renderer's output is
the claimed layout: each column's field width is its maximum printed width
across all rows plus the padding constant (default 4), every cell is
center-aligned in that field width with columns joined edge-to-edge, and
immediately after the header line comes one separator line of dashes of
length (width − padding) center-padded to the same field widths. -/
theorem C9_renderer (lol : List (List Cell)) (pad : Nat) (hne : lol ≠ [])
    (hrect : ∀ r ∈ lol, r.length = (lol.headD []).length) :
    simple_table lol pad = String.intercalate "\n" (specLines lol pad) := by
  rw [simple_table, sizes_eq_specWidths lol pad hrect]
  cases lol with
  | nil => rfl
  | cons hd tl => rfl

/-- C9 (witness): the layout equality at a concrete two-row table with the
default padding. -/
theorem C9_witness :
    simple_table demoTable 4 = String.intercalate "\n" (specLines demoTable 4) :=
  C9_renderer demoTable 4 (by decide) (by decide)

end TruthTable



